import Mathlib

/-
Verification of the Circuit5 firmware core (Wi-Fi provisioning + MQTT
telemetry) against its specification.

Shallow embedding conventions:
  * Arduino `String` values and C byte buffers are modelled as `List Nat`
    of byte values (0..255).
  * The EEPROM credential slot is modelled by the stored record itself:
    `EEPROM.get`/`EEPROM.put` on the single fixed-layout record are exact
    byte-for-byte copies of the whole image, so reading is the identity on
    the stored record and writing replaces it.
  * Side effects of the MQTT code (serial logging, connect attempts,
    delays, polls, publishes) are reified as a trace of `MqttAction`s;
    the broker's response to the n-th CONNECT of a call is an oracle
    `Nat → Bool`.
  * `float` telemetry values are modelled as exact centi-units (`Int`
    hundredths), because `String(x, 2)` renders exactly two fractional
    digits and every value the spec mentions is exact in hundredths.
-/

/-- Byte list of a Lean string literal (ASCII contents only). -/
def sB (s : String) : List Nat := s.data.map Char.toNat

/-! ## CredentialStore (src/Sketch/WiFiProvisioning.cpp, WiFiProvisioning.h)

`struct WifiCredentials { uint8_t magic; char ssid[32]; char password[64]; }`
-/

structure WifiCredentials where
  magic : Nat
  ssid : List Nat
  password : List Nat
deriving DecidableEq, Repr

/-- WIFI_MAGIC = 0x42. -/
def WIFI_MAGIC : Nat := 66

/-- loadWifiCredentials: `EEPROM.get(EEPROM_ADDR, creds)` then the two
validity checks; returning `none` models `return false`, `some` the filled
record with `return true`. -/
def loadWifiCredentials (stored : WifiCredentials) : Option WifiCredentials :=
  if stored.magic ≠ WIFI_MAGIC then none
  else if stored.ssid.getD 0 0 = 0 then none
  else some stored

/-- saveWifiCredentials: `EEPROM.put(EEPROM_ADDR, creds)` replaces the whole
stored image with `creds`. -/
def saveWifiCredentials (creds _stored : WifiCredentials) : WifiCredentials :=
  creds

/-- Record image after `memset(&empty, 0, sizeof(empty))`. -/
def zeroCredentials : WifiCredentials :=
  { magic := 0, ssid := List.replicate 32 0, password := List.replicate 64 0 }

/-- clearWifiCredentials: writes the all-zero image over the slot. -/
def clearWifiCredentials (_stored : WifiCredentials) : WifiCredentials :=
  zeroCredentials

/-! ## URL decoding (urlDecode in WiFiProvisioning.cpp) -/

/-- Value of `(h1 >= 'A') ? ((h1 & ~0x20) - 'A' + 10) : (h1 - '0')`
computed, as in C, in `int` (chars on ARM are unsigned bytes). -/
def hexNib (h : Nat) : Int :=
  if 65 ≤ h then ((h &&& 0xDF : Nat) : Int) - 65 + 10 else (h : Int) - 48

/-- Value of `(char)((hi << 4) | (lo & 0x0F))` for an unsigned 8-bit char.
In two's complement `x & 0x0F` is `x % 16` (Int.emod) and, because
`hi << 4` has zero low nibble, the `|` is addition; the final cast to an
unsigned char is `% 256`. -/
def pctByte (h1 h2 : Nat) : Nat :=
  ((hexNib h1 * 16 + hexNib h2 % 16) % 256).toNat

/-- urlDecode: `'+'` (43) becomes space (32); `'%'` (37) followed by at
least two more characters (`i + 2 < src.length()`) consumes two hex chars;
otherwise the character is copied through. -/
def urlDecode : List Nat → List Nat
  | [] => []
  | 43 :: rest => 32 :: urlDecode rest
  | 37 :: h1 :: h2 :: rest => pctByte h1 h2 :: urlDecode rest
  | 37 :: rest => 37 :: urlDecode rest
  | c :: rest => c :: urlDecode rest

/-! ## Form-field extraction (getFormField in WiFiProvisioning.cpp) -/

/-- Arduino `String.indexOf(key)`: index of the first occurrence of `key`
as a substring, `none` for `-1`. -/
def subIndexFrom (body key : List Nat) : Option Nat :=
  match body with
  | [] => if key = [] then some 0 else none
  | c :: rest =>
    if key.isPrefixOf (c :: rest) then some 0
    else (subIndexFrom rest key).map (· + 1)

/-- Arduino `String.indexOf(ch, from)`: first index `≥ from` holding byte
`ch`, `none` for `-1`. -/
def charIndexFrom (body : List Nat) (ch start : Nat) : Option Nat :=
  (subIndexFrom (body.drop start) [ch]).map (· + start)

/-- getFormField: find `name + "="`, slice from just past it to the next
`'&'` (38) or the end of the body. -/
def getFormField (body name : List Nat) : List Nat :=
  let key := name ++ [61]
  match subIndexFrom body key with
  | none => []
  | some idx =>
    let start := idx + key.length
    let stop :=
      match charIndexFrom body 38 start with
      | none => body.length
      | some e => e
    (body.drop start).take (stop - start)

/-! ## POST /save handling (handleConfigClient in WiFiProvisioning.cpp) -/

/-- Arduino `isspace` set used by `String.trim`: space, tab, LF, VT, FF, CR. -/
def isSpaceByte (c : Nat) : Bool :=
  c = 32 || (9 ≤ c && c ≤ 13)

/-- Arduino `String.trim()`: strip leading and trailing whitespace. -/
def trimBytes (s : List Nat) : List Nat :=
  ((s.dropWhile isSpaceByte).reverse.dropWhile isSpaceByte).reverse

/-- Effect of `field.substring(0, n - 1).toCharArray(buf, n)` on a buffer of
size `n` cleared by `memset 0`: the first `n - 1` bytes of the field, a null
terminator, and null padding up to `n` bytes. -/
def truncPad (n : Nat) (s : List Nat) : List Nat :=
  let t := s.take (n - 1)
  t ++ List.replicate (n - t.length) 0

/-- Form field name `"ssid"`. -/
def ssidKey : List Nat := sB "ssid"

/-- Form field name `"password"`. -/
def passwordKey : List Nat := sB "password"

/-- Decoded, trimmed ssid field of a request body (the handler trims the
accumulated body before parsing, then trims the decoded field). -/
def ssidFieldOf (body : List Nat) : List Nat :=
  trimBytes (urlDecode (getFormField (trimBytes body) ssidKey))

/-- Decoded, trimmed password field of a request body. -/
def passFieldOf (body : List Nat) : List Nat :=
  trimBytes (urlDecode (getFormField (trimBytes body) passwordKey))

/-- Record written by the `POST /save` branch of handleConfigClient:
`memset(&newCreds, 0, ...)`, `newCreds.magic = WIFI_MAGIC`, then the two
truncating `toCharArray` copies into the 32- and 64-byte buffers. -/
def savedCreds (body : List Nat) : WifiCredentials :=
  { magic := WIFI_MAGIC
    ssid := truncPad 32 (ssidFieldOf body)
    password := truncPad 64 (passFieldOf body) }

/-! ## Spec-side functions for the URL-decoding claim

These follow the specification's words ("URL-encoding per the
form-encoding rules", "%HH where HH is case-insensitive hex"), to be
compared with the decoder translated from the source. -/

/-- Modelled from the spec: ASCII uppercase hex digit of a nibble, used by
the form encoder the round-trip property quantifies over. -/
def hexDigitChar (d : Nat) : Nat := if d < 10 then 48 + d else 55 + d

/-- Modelled from the spec: bytes kept literally by form encoding
(ASCII alphanumerics and `* - . _`). -/
def isUnreservedByte (b : Nat) : Bool :=
  (48 ≤ b && b ≤ 57) || (65 ≤ b && b ≤ 90) || (97 ≤ b && b ≤ 122) ||
    b = 42 || b = 45 || b = 46 || b = 95

/-- Modelled from the spec: form encoding of one byte — space becomes `+`,
unreserved bytes stay, everything else becomes `%HH`. -/
def formEncodeByte (b : Nat) : List Nat :=
  if b = 32 then [43]
  else if isUnreservedByte b then [b]
  else [37, hexDigitChar (b / 16), hexDigitChar (b % 16)]

/-- Modelled from the spec: form encoding of a byte string. -/
def formEncode (bs : List Nat) : List Nat :=
  (bs.map formEncodeByte).flatten

/-- Specification-level value of a case-insensitive hex digit. -/
def hexVal (d : Nat) : Nat :=
  if d ≤ 57 then d - 48 else if d ≤ 70 then d - 55 else d - 87

/-- Specification-level recogniser of case-insensitive hex digits. -/
def isHexDigitByte (d : Nat) : Bool :=
  (48 ≤ d && d ≤ 57) || (65 ≤ d && d ≤ 70) || (97 ≤ d && d ≤ 102)

/-! ## TelemetryPublisher (src/Sketch/MqttTelemetry.cpp)

Observable effects are reified as actions; the broker's answer to the
n-th `gMqttClient.connect(...)` call of one helper invocation is
`oracle n`. -/

inductive MqttAction where
  | logLine (msg : String)
  | connectAttempt
  | delayMs (ms : Nat)
  | poll
  | publishMsg (topic payload : List Nat)
deriving DecidableEq, Repr

/-- Recogniser of connect attempts in a trace. -/
def isConnectAttempt : MqttAction → Bool
  | .connectAttempt => true
  | _ => false

/-- Recogniser of PUBLISH emissions in a trace. -/
def isPublishAction : MqttAction → Bool
  | .publishMsg _ _ => true
  | _ => false

/-- Retry loop body of connectToMqttBroker: `while (!connect(...))` with
`attempts++`, give-up at 5, `delay(2000)` between attempts. The fuel is
`5 - attempts`, so it never runs out before the give-up branch. Returns the
trace and the final `gMqttClient.connected()` status. -/
def connectGo (oracle : Nat → Bool) : Nat → Nat → Nat → List MqttAction × Bool
  | _, _, 0 => ([], false)
  | idx, attempts, fuel + 1 =>
    if oracle idx then ([.connectAttempt], true)
    else if attempts + 1 ≥ 5 then
      ([.connectAttempt, .logLine "MQTT connect failed, error code",
        .logLine "MQTT: giving up for now, will retry in loop."], false)
    else
      let r := connectGo oracle (idx + 1) (attempts + 1) fuel
      (.connectAttempt :: .logLine "MQTT connect failed, error code" ::
        .delayMs 2000 :: r.1, r.2)

/-- connectToMqttBroker: banner log, retry loop, success log only when the
loop exits connected. -/
def connectToMqttBroker (oracle : Nat → Bool) : List MqttAction × Bool :=
  let r := connectGo oracle 0 0 5
  (.logLine "MQTT: Connecting to broker" :: r.1 ++
      (if r.2 then [MqttAction.logLine "MQTT: Connected to HiveMQ Cloud broker."] else []),
    r.2)

/-- mqttLoop: reconnect when the session is down, then `poll()`. The
function takes the current `gMqttClient.connected()` status; nothing in the
source consults Wi-Fi state. -/
def mqttLoop (connected : Bool) (oracle : Nat → Bool) : List MqttAction × Bool :=
  let r := if connected then (([] : List MqttAction), true) else connectToMqttBroker oracle
  (r.1 ++ [MqttAction.poll], r.2)

/-- MQTT_TOPIC constant. -/
def mqttTopic : List Nat := sB "hope/iot/circuit5/living-room/uno-r4/telemetry"

/-- Digits accumulator for decimal printing, fuelled (fuel `n + 1` always
suffices since the argument shrinks by a factor of ten). -/
def decDigitsGo : Nat → Nat → List Nat
  | 0, _ => []
  | fuel + 1, n => if n < 10 then [48 + n] else decDigitsGo fuel (n / 10) ++ [48 + n % 10]

/-- ASCII decimal digits of a natural number. -/
def decDigits (n : Nat) : List Nat := decDigitsGo (n + 1) n

/-- Two-digit ASCII rendering of `m < 100`. -/
def twoDigits (m : Nat) : List Nat := [48 + m / 10, 48 + m % 10]

/-- Rendering of a nonnegative centi-unit value with two fractional
digits, as `String(x, 2)` does. -/
def fmt2N (n : Nat) : List Nat := decDigits (n / 100) ++ 46 :: twoDigits (n % 100)

/-- `String(x, 2)` on a float holding the exact centi-unit value `x/100`. -/
def fmt2 (x : Int) : List Nat :=
  if x < 0 then 45 :: fmt2N x.natAbs else fmt2N x.toNat

/-- JSON payload built by mqttPublishTelemetry's chain of `payload +=`
concatenations, in source order. -/
def telemetryPayload (t h : Int) (status : List Nat) : List Nat :=
  sB "\x7b" ++ sB "\"deviceId\":\"uno-r4-living-room\"," ++
    sB "\"temperature\":" ++ fmt2 t ++ sB "," ++
    sB "\"humidity\":" ++ fmt2 h ++ sB "," ++
    sB "\"status\":\"" ++ status ++ sB "\"\x7d"

/-- mqttPublishTelemetry: when the session is down, one connectToMqttBroker
call; if still down, log a skip and drop; otherwise log and emit a single
PUBLISH of the JSON payload on MQTT_TOPIC. Wi-Fi state is never consulted.
Returns the trace and the final session status. -/
def mqttPublishTelemetry (connected : Bool) (oracle : Nat → Bool)
    (t h : Int) (status : List Nat) : List MqttAction × Bool :=
  let pubActs : List MqttAction :=
    [.logLine "MQTT: Publishing", .publishMsg mqttTopic (telemetryPayload t h status)]
  if connected then (pubActs, true)
  else
    let r := connectToMqttBroker oracle
    if r.2 then (r.1 ++ pubActs, true)
    else (r.1 ++ [MqttAction.logLine "MQTT: still not connected, skipping telemetry publish."], false)

/-- Example body from the specification's form-field scan property. -/
def exampleBody : List Nat := sB "a=1&ssid=Hello%20World&password=p%26q"

/-! ## Helper lemmas -/

theorem urlDecode_plus (rest : List Nat) :
    urlDecode (43 :: rest) = 32 :: urlDecode rest := rfl

theorem urlDecode_pct (h1 h2 : Nat) (rest : List Nat) :
    urlDecode (37 :: h1 :: h2 :: rest) = pctByte h1 h2 :: urlDecode rest := rfl

theorem urlDecode_other (c : Nat) (rest : List Nat) (hc1 : c ≠ 43) (hc2 : c ≠ 37) :
    urlDecode (c :: rest) = c :: urlDecode rest := by
  rcases rest with _ | ⟨a, _ | ⟨b, t⟩⟩ <;>
    · rw [urlDecode.eq_def]
      split <;> simp_all

/-! ## C3: validity gate of load() -/

/-- C3: for every stored record image, load() returns NotFound exactly when
the validity marker differs from 0x42 or the first ssid byte is 0, and in
every other case it returns the stored record itself; it never fails. -/
theorem load_validity_gate (e : WifiCredentials) :
    (loadWifiCredentials e = none ↔ (e.magic ≠ 66 ∨ e.ssid.getD 0 0 = 0))
  ∧ (loadWifiCredentials e = some e ↔ (e.magic = 66 ∧ e.ssid.getD 0 0 ≠ 0))
  ∧ (loadWifiCredentials e = none ∨ loadWifiCredentials e = some e) := by
  unfold loadWifiCredentials WIFI_MAGIC
  split_ifs <;> simp_all

/-! ## C4: save/load round trip -/

/-- Record with the sentinel set but an empty ssid. -/
def sentinelEmptySsid : WifiCredentials :=
  { magic := 66, ssid := List.replicate 32 0, password := List.replicate 64 0 }

/-- C4 counterexample: a record whose validity marker equals the sentinel
0x42 but whose ssid is empty is reported NotFound by load() right after
save(), so the claim fails as stated. -/
theorem save_load_roundtrip_counterexample :
    sentinelEmptySsid.magic = 66
  ∧ loadWifiCredentials (saveWifiCredentials sentinelEmptySsid zeroCredentials) = none := by
  constructor
  · rfl
  · decide

/-- C4 amended: for every record whose validity marker equals 0x42 and whose
first ssid byte is nonzero, save(r) followed by load() in the same power
cycle returns exactly r (byte-equal, the whole image is copied); when the
first ssid byte is 0 the validity gate reports NotFound instead. -/
theorem save_load_roundtrip (r e : WifiCredentials)
    (hm : r.magic = 66) (hs : r.ssid.getD 0 0 ≠ 0) :
    loadWifiCredentials (saveWifiCredentials r e) = some r := by
  simp only [loadWifiCredentials, saveWifiCredentials, WIFI_MAGIC]
  rw [if_neg (by simp [hm]), if_neg hs]

/-- Concrete valid record used to witness the round trip. -/
def witnessRecord : WifiCredentials :=
  { magic := 66, ssid := 72 :: List.replicate 31 0, password := List.replicate 64 0 }

theorem save_load_roundtrip_witness :
    witnessRecord.magic = 66
  ∧ witnessRecord.ssid.getD 0 0 ≠ 0
  ∧ loadWifiCredentials (saveWifiCredentials witnessRecord zeroCredentials) = some witnessRecord :=
  ⟨by decide, by decide, save_load_roundtrip witnessRecord zeroCredentials (by decide) (by decide)⟩

/-! ## C5: erase semantics -/

/-- C5: erase() overwrites the slot with zero bytes, the next load()
returns NotFound, erase() is idempotent, and erase(); erase(); load() also
returns NotFound. -/
theorem erase_idempotent_notfound (e : WifiCredentials) :
    clearWifiCredentials e = zeroCredentials
  ∧ loadWifiCredentials (clearWifiCredentials e) = none
  ∧ clearWifiCredentials (clearWifiCredentials e) = clearWifiCredentials e
  ∧ loadWifiCredentials (clearWifiCredentials (clearWifiCredentials e)) = none := by
  refine ⟨rfl, ?_, rfl, ?_⟩ <;>
    · show loadWifiCredentials zeroCredentials = none
      decide

/-! ## C2: bounded connect retries -/

/-- Trace of one connectToMqttBroker invocation against a broker that
rejects every CONNECT: five attempts, consecutive attempts separated by a
2-second delay, then the give-up log and return. -/
def connectFailTrace : List MqttAction :=
  [.logLine "MQTT: Connecting to broker",
   .connectAttempt, .logLine "MQTT connect failed, error code", .delayMs 2000,
   .connectAttempt, .logLine "MQTT connect failed, error code", .delayMs 2000,
   .connectAttempt, .logLine "MQTT connect failed, error code", .delayMs 2000,
   .connectAttempt, .logLine "MQTT connect failed, error code", .delayMs 2000,
   .connectAttempt, .logLine "MQTT connect failed, error code",
   .logLine "MQTT: giving up for now, will retry in loop."]

theorem connectGo_countP_le (oracle : Nat → Bool) :
    ∀ (fuel idx attempts : Nat),
      ((connectGo oracle idx attempts fuel).1.countP isConnectAttempt) ≤ fuel := by
  intro fuel
  induction fuel with
  | zero => intro idx attempts; simp [connectGo]
  | succ fuel ih =>
    intro idx attempts
    rw [connectGo]
    by_cases h1 : oracle idx
    · simp [h1, List.countP_cons, isConnectAttempt]
    · by_cases h2 : attempts + 1 ≥ 5
      · simp [h1, h2, List.countP_cons, isConnectAttempt]
      · have := ih (idx + 1) (attempts + 1)
        simp only [h1, h2, if_false, if_neg, Bool.false_eq_true, ite_false]
        simp [List.countP_cons, isConnectAttempt]
        omega

theorem connectToMqttBroker_countP_le (oracle : Nat → Bool) :
    (connectToMqttBroker oracle).1.countP isConnectAttempt ≤ 5 := by
  unfold connectToMqttBroker
  have h := connectGo_countP_le oracle 5 0 0
  cases hr2 : (connectGo oracle 0 0 5).2 <;>
    simp_all [List.countP_cons, List.countP_append, isConnectAttempt]

theorem connectToMqttBroker_allfail (oracle : Nat → Bool) (hfail : ∀ n, oracle n = false) :
    connectToMqttBroker oracle = (connectFailTrace, false) := by
  have h : oracle = fun _ => false := funext hfail
  subst h
  decide

/-- C2: against a broker that rejects every CONNECT, a single invocation of
the connect procedure makes exactly 5 attempts, consecutive attempts
separated by a 2-second wait (the `connectFailTrace` literal), and then
returns to the caller disconnected; for an arbitrary broker at most 5
attempts are ever made. -/
theorem connect_retry_bounded (oracle oracle2 : Nat → Bool)
    (hrej : ∀ n, oracle n = false) :
    (connectToMqttBroker oracle2).1.countP isConnectAttempt ≤ 5
  ∧ connectToMqttBroker oracle = (connectFailTrace, false)
  ∧ connectFailTrace.countP isConnectAttempt = 5
  ∧ connectFailTrace.filter
      (fun a => isConnectAttempt a || (a == MqttAction.delayMs 2000)) =
      [.connectAttempt, .delayMs 2000, .connectAttempt, .delayMs 2000,
       .connectAttempt, .delayMs 2000, .connectAttempt, .delayMs 2000,
       .connectAttempt] := by
  refine ⟨connectToMqttBroker_countP_le oracle2,
    connectToMqttBroker_allfail oracle hrej, by decide, by decide⟩

theorem connect_retry_bounded_witness :
    (∀ n : Nat, (fun _ : Nat => false) n = false)
  ∧ ((connectToMqttBroker (fun _ => false)).1.countP isConnectAttempt ≤ 5
  ∧ connectToMqttBroker (fun _ => false) = (connectFailTrace, false)
  ∧ connectFailTrace.countP isConnectAttempt = 5
  ∧ connectFailTrace.filter
      (fun a => isConnectAttempt a || (a == MqttAction.delayMs 2000)) =
      [.connectAttempt, .delayMs 2000, .connectAttempt, .delayMs 2000,
       .connectAttempt, .delayMs 2000, .connectAttempt, .delayMs 2000,
       .connectAttempt]) :=
  ⟨fun _ => rfl,
   connect_retry_bounded (fun _ => false) (fun _ => false) (fun _ => rfl)⟩

/-! ## C1: publish and tick while Wi-Fi is down -/

/-- C1 counterexample: the source never consults Wi-Fi state, so with
Wi-Fi down (every connect fails) a publish call still makes 5 reconnect
attempts, and tick() is not a no-op (its trace is nonempty: it reconnects
and polls). This refutes the claim as stated. -/
theorem mqttPublish_wifiDown_counterexample :
    (mqttPublishTelemetry false (fun _ => false) 2100 5000 (sB "err")).1.countP
        isConnectAttempt = 5
  ∧ (mqttLoop false (fun _ => false)).1 ≠ [] := by
  constructor <;> decide

/-- C1 amended: publish(sample) while the session is down (in particular
while Wi-Fi is down, when every connect fails) runs one bounded connect
procedure, then drops the sample with a log line and emits no PUBLISH;
tick() in the same situation runs the connect procedure and then polls —
it is not a no-op. -/
theorem mqttPublish_wifiDown_behavior (oracle : Nat → Bool) (t h : Int)
    (s : List Nat) (hfail : ∀ n, oracle n = false) :
    (mqttPublishTelemetry false oracle t h s).2 = false
  ∧ (mqttPublishTelemetry false oracle t h s).1 =
      connectFailTrace ++
        [MqttAction.logLine "MQTT: still not connected, skipping telemetry publish."]
  ∧ (mqttPublishTelemetry false oracle t h s).1.countP isPublishAction = 0
  ∧ (mqttPublishTelemetry false oracle t h s).1.countP isConnectAttempt = 5
  ∧ (mqttLoop false oracle).1 = connectFailTrace ++ [MqttAction.poll] := by
  have hc := connectToMqttBroker_allfail oracle hfail
  have e1 : mqttPublishTelemetry false oracle t h s =
      (connectFailTrace ++
        [MqttAction.logLine "MQTT: still not connected, skipping telemetry publish."],
       false) := by
    simp [mqttPublishTelemetry, hc]
  refine ⟨by rw [e1], by rw [e1], ?_, ?_, by simp [mqttLoop, hc]⟩
  · rw [e1]; decide
  · rw [e1]; decide

theorem mqttPublish_wifiDown_behavior_witness :
    (∀ n : Nat, (fun _ : Nat => false) n = false)
  ∧ ((mqttPublishTelemetry false (fun _ => false) 2100 5000 (sB "err")).2 = false
  ∧ (mqttPublishTelemetry false (fun _ => false) 2100 5000 (sB "err")).1 =
      connectFailTrace ++
        [MqttAction.logLine "MQTT: still not connected, skipping telemetry publish."]
  ∧ (mqttPublishTelemetry false (fun _ => false) 2100 5000 (sB "err")).1.countP
        isPublishAction = 0
  ∧ (mqttPublishTelemetry false (fun _ => false) 2100 5000 (sB "err")).1.countP
        isConnectAttempt = 5
  ∧ (mqttLoop false (fun _ => false)).1 = connectFailTrace ++ [MqttAction.poll]) :=
  ⟨fun _ => rfl,
   mqttPublish_wifiDown_behavior (fun _ => false) 2100 5000 (sB "err") (fun _ => rfl)⟩

/-! ## C9: payload encoding -/

theorem decDigitsGo_digits :
    ∀ (fuel n : Nat), ∀ d ∈ decDigitsGo fuel n, 48 ≤ d ∧ d ≤ 57 := by
  intro fuel
  induction fuel with
  | zero => intro n d hd; simp [decDigitsGo] at hd
  | succ fuel ih =>
    intro n d hd
    by_cases hn : n < 10
    · simp [decDigitsGo, hn] at hd
      omega
    · simp only [decDigitsGo, hn, if_false, ite_false, List.mem_append,
        List.mem_singleton] at hd
      rcases hd with hd | hd
      · exact ih _ d hd
      · have : n % 10 < 10 := Nat.mod_lt _ (by omega)
        omega

/-- C9 counterexample: the payload built for the sample (22.4, 48.1, "ok")
is not the spec's literal (the source renders floats with `String(x, 2)`,
so the numbers appear as 22.40 and 48.10, not 22.4 and 48.1). -/
theorem payload_encoding_counterexample :
    telemetryPayload 2240 4810 (sB "ok") ≠
      sB "\x7b\"deviceId\":\"uno-r4-living-room\",\"temperature\":22.4,\"humidity\":48.1,\"status\":\"ok\"\x7d" := by
  decide

/-- C9 amended: every payload is a JSON object with the fixed key order
deviceId, temperature, humidity, status, where temperature and humidity
are rendered with exactly two fractional digits (an all-decimal-digit
integer part, a dot, then exactly two decimal digits); in particular
publish({22.4, 48.1, "ok"}) emits exactly one PUBLISH whose payload ends
...22.40...48.10... as shown. -/
theorem payload_encoding_fixed_order (t h : Int) (s : List Nat) (n : Nat)
    (oracle : Nat → Bool) :
    telemetryPayload t h s =
      sB "\x7b\"deviceId\":\"uno-r4-living-room\",\"temperature\":" ++ fmt2 t ++
        sB ",\"humidity\":" ++ fmt2 h ++ sB ",\"status\":\"" ++ s ++ sB "\"\x7d"
  ∧ fmt2 (Int.ofNat n) =
      decDigits (n / 100) ++ 46 :: [48 + n % 100 / 10, 48 + n % 100 % 10]
  ∧ (∀ d ∈ decDigits (n / 100), 48 ≤ d ∧ d ≤ 57)
  ∧ (mqttPublishTelemetry true oracle 2240 4810 (sB "ok")).1 =
      [.logLine "MQTT: Publishing",
       .publishMsg mqttTopic
         (sB "\x7b\"deviceId\":\"uno-r4-living-room\",\"temperature\":22.40,\"humidity\":48.10,\"status\":\"ok\"\x7d")] := by
  refine ⟨?_, ?_, decDigitsGo_digits _ _, ?_⟩
  · simp only [telemetryPayload, List.append_assoc]
    rfl
  · have hnn : ¬ Int.ofNat n < 0 := by
      have h0 : Int.ofNat n = (n : Int) := rfl
      omega
    rw [fmt2, if_neg hnn]
    simp [fmt2N, twoDigits, Int.toNat_ofNat]
  · rfl

/-! ## C6: URL decoder correctness -/

theorem hexVal_lt (d : Nat) (hd : isHexDigitByte d = true) : hexVal d < 16 := by
  simp only [isHexDigitByte, Bool.or_eq_true, Bool.and_eq_true,
    decide_eq_true_eq] at hd
  unfold hexVal
  split_ifs <;> omega

theorem hexNib_eq (d : Nat) (hd : isHexDigitByte d = true) :
    hexNib d = (hexVal d : Int) := by
  simp only [isHexDigitByte, Bool.or_eq_true, Bool.and_eq_true,
    decide_eq_true_eq] at hd
  rcases hd with (⟨ha, hb⟩ | ⟨ha, hb⟩) | ⟨ha, hb⟩
  · unfold hexNib hexVal
    rw [if_neg (by omega), if_pos (by omega)]
    omega
  · have hland : d &&& 0xDF = d := by
      have hc : d = 65 ∨ d = 66 ∨ d = 67 ∨ d = 68 ∨ d = 69 ∨ d = 70 := by omega
      rcases hc with rfl | rfl | rfl | rfl | rfl | rfl <;> rfl
    unfold hexNib hexVal
    rw [if_pos (by omega), hland, if_neg (by omega), if_pos (by omega)]
    omega
  · have hland : d &&& 0xDF = d - 32 := by
      have hc : d = 97 ∨ d = 98 ∨ d = 99 ∨ d = 100 ∨ d = 101 ∨ d = 102 := by omega
      rcases hc with rfl | rfl | rfl | rfl | rfl | rfl <;> rfl
    unfold hexNib hexVal
    rw [if_pos (by omega), hland, if_neg (by omega), if_neg (by omega)]
    omega

theorem pctByte_hex (d1 d2 : Nat) (h1 : isHexDigitByte d1 = true)
    (h2 : isHexDigitByte d2 = true) :
    pctByte d1 d2 = 16 * hexVal d1 + hexVal d2 := by
  have e1 := hexNib_eq d1 h1
  have e2 := hexNib_eq d2 h2
  have v1 := hexVal_lt d1 h1
  have v2 := hexVal_lt d2 h2
  unfold pctByte
  rw [e1, e2]
  omega

set_option maxRecDepth 10000 in
theorem pct_encode :
    ∀ b < 256, pctByte (hexDigitChar (b / 16)) (hexDigitChar (b % 16)) = b := by
  decide

theorem urlDecode_encodeByte (b : Nat) (hb : b < 256) (rest : List Nat) :
    urlDecode (formEncodeByte b ++ rest) = b :: urlDecode rest := by
  by_cases h32 : b = 32
  · subst h32
    rw [formEncodeByte, if_pos rfl]
    exact urlDecode_plus rest
  · by_cases hun : isUnreservedByte b = true
    · have hb' : b ≠ 43 ∧ b ≠ 37 := by
        simp only [isUnreservedByte, Bool.or_eq_true, Bool.and_eq_true,
          decide_eq_true_eq] at hun
        omega
      rw [formEncodeByte, if_neg h32, if_pos hun, List.cons_append,
        List.nil_append]
      exact urlDecode_other b rest hb'.1 hb'.2
    · rw [formEncodeByte, if_neg h32, if_neg hun, List.cons_append,
        List.cons_append, List.cons_append, List.nil_append, urlDecode_pct,
        pct_encode b hb]

theorem urlDecode_formEncode (bs : List Nat) (hb : ∀ b ∈ bs, b < 256) :
    urlDecode (formEncode bs) = bs := by
  induction bs with
  | nil => rfl
  | cons b rest ih =>
    have h1 : b < 256 := hb b (List.mem_cons_self _ _)
    have h2 : ∀ x ∈ rest, x < 256 := fun x hx => hb x (List.mem_cons_of_mem _ hx)
    have hsplit : formEncode (b :: rest) = formEncodeByte b ++ formEncode rest := by
      simp [formEncode]
    rw [hsplit, urlDecode_encodeByte b h1, ih h2]

/-- C6: the URL decoder maps `+` to space; maps `%HH` with two following
case-insensitive hex digits to the byte `16*hi + lo`; passes a `%` whose
escape is truncated at the tail (fewer than two following characters)
through literally; and decoding the form-encoding of any byte string
reproduces the original bytes exactly. -/
theorem urlDecode_spec_correct (bs rest tail2 : List Nat) (d1 d2 : Nat)
    (hb : ∀ b ∈ bs, b < 256)
    (h1 : isHexDigitByte d1 = true) (h2 : isHexDigitByte d2 = true)
    (htail : tail2.length ≤ 1) :
    urlDecode (43 :: rest) = 32 :: urlDecode rest
  ∧ urlDecode (37 :: d1 :: d2 :: rest) =
      (16 * hexVal d1 + hexVal d2) :: urlDecode rest
  ∧ urlDecode (37 :: tail2) = 37 :: urlDecode tail2
  ∧ urlDecode (formEncode bs) = bs := by
  refine ⟨urlDecode_plus rest, ?_, ?_, urlDecode_formEncode bs hb⟩
  · rw [urlDecode_pct, pctByte_hex d1 d2 h1 h2]
  · rcases tail2 with _ | ⟨d, _ | ⟨e, t⟩⟩
    · rfl
    · rfl
    · simp at htail

theorem urlDecode_spec_correct_witness :
    (∀ b ∈ sB "a b%c", b < 256)
  ∧ isHexDigitByte 70 = true
  ∧ isHexDigitByte 97 = true
  ∧ (sB "4").length ≤ 1
  ∧ (urlDecode (43 :: sB "x") = 32 :: urlDecode (sB "x")
  ∧ urlDecode (37 :: 70 :: 97 :: sB "x") =
      (16 * hexVal 70 + hexVal 97) :: urlDecode (sB "x")
  ∧ urlDecode (37 :: sB "4") = 37 :: urlDecode (sB "4")
  ∧ urlDecode (formEncode (sB "a b%c")) = sB "a b%c") :=
  ⟨by decide, by decide, by decide, by decide,
   urlDecode_spec_correct (sB "a b%c") (sB "x") (sB "4") 70 97
     (by decide) (by decide) (by decide) (by decide)⟩

/-! ## C7: form-field extraction -/

theorem subIndexFrom_cons (c : Nat) (rest key : List Nat) :
    subIndexFrom (c :: rest) key =
      if key.isPrefixOf (c :: rest) then some 0
      else (subIndexFrom rest key).map (· + 1) := rfl

theorem subIndexFrom_none (key : List Nat) (hk : key ≠ []) :
    ∀ body : List Nat,
      (∀ j, j < body.length → ¬ key.isPrefixOf (body.drop j) = true) →
      subIndexFrom body key = none := by
  intro body
  induction body with
  | nil =>
    intro _
    simp [subIndexFrom, hk]
  | cons c rest ih =>
    intro h
    rw [subIndexFrom_cons, if_neg (by simpa using h 0 (by simp))]
    rw [ih (fun j hj => by
      simpa using h (j + 1) (by simpa using Nat.succ_lt_succ hj))]
    rfl

theorem subIndexFrom_some (key : List Nat) :
    ∀ (body : List Nat) (i : Nat),
      key.isPrefixOf (body.drop i) = true →
      (∀ j, j < i → ¬ key.isPrefixOf (body.drop j) = true) →
      subIndexFrom body key = some i := by
  intro body
  induction body with
  | nil =>
    intro i hpre hmin
    have hkey : key = [] := by
      cases key with
      | nil => rfl
      | cons a t => simp [List.drop_nil, List.isPrefixOf] at hpre
    subst hkey
    have hi : i = 0 := by
      by_contra hne
      exact hmin 0 (Nat.pos_of_ne_zero hne) (by simp [List.isPrefixOf])
    subst hi
    simp [subIndexFrom]
  | cons c rest ih =>
    intro i hpre hmin
    cases i with
    | zero =>
      rw [subIndexFrom_cons, if_pos (by simpa using hpre)]
    | succ i2 =>
      rw [subIndexFrom_cons, if_neg (by simpa using hmin 0 (Nat.succ_pos _))]
      rw [ih i2 (by simpa using hpre)
        (fun j hj => by simpa using hmin (j + 1) (Nat.succ_lt_succ hj))]
      rfl

theorem take_amp_eq_takeWhile :
    ∀ r : List Nat,
      r.take ((subIndexFrom r [38]).getD r.length) =
        r.takeWhile (fun b => b != 38) := by
  intro r
  induction r with
  | nil => simp
  | cons c rest ih =>
    by_cases hc : c = 38
    · subst hc
      rw [subIndexFrom_cons, if_pos (by simp [List.isPrefixOf])]
      simp [List.takeWhile_cons]
    · rw [subIndexFrom_cons,
        if_neg (by simp only [List.isPrefixOf, List.isPrefixOf_nil_left,
          Bool.and_true, beq_iff_eq]; omega)]
      cases hsub : subIndexFrom rest [38] with
      | none =>
        rw [hsub] at ih
        simp only [Option.getD_none, List.take_length] at ih
        simp [List.take_succ_cons, List.take_length, List.takeWhile_cons,
          bne_iff_ne, hc, ← ih]
      | some e =>
        rw [hsub] at ih
        simp only [Option.getD_some] at ih
        simp [List.take_succ_cons, List.takeWhile_cons, bne_iff_ne, hc, ih]

theorem getFormField_firstOccur (body name : List Nat) (i : Nat)
    (hpre : (name ++ [61]).isPrefixOf (body.drop i) = true)
    (hmin : ∀ j, j < i → ¬ (name ++ [61]).isPrefixOf (body.drop j) = true) :
    getFormField body name =
      (body.drop (i + (name.length + 1))).takeWhile (fun b => b != 38) := by
  have hidx := subIndexFrom_some (name ++ [61]) body i hpre hmin
  have hlen : (name ++ [61]).length = name.length + 1 := by simp
  unfold getFormField
  simp only [hidx, hlen, charIndexFrom]
  cases hsub : subIndexFrom (body.drop (i + (name.length + 1))) [38] with
  | none =>
    have ht := take_amp_eq_takeWhile (body.drop (i + (name.length + 1)))
    rw [hsub] at ht
    simp only [Option.getD_none, List.length_drop] at ht
    simpa using ht
  | some e =>
    have ht := take_amp_eq_takeWhile (body.drop (i + (name.length + 1)))
    rw [hsub] at ht
    simp only [Option.getD_some] at ht
    simpa [Nat.add_sub_cancel] using ht

/-- C7: form-field extraction returns the slice starting after the first
occurrence of `name=` and ending at the next `&` or the end of the body,
and returns the empty string when the name is absent; on the body
`a=1&ssid=Hello%20World&password=p%26q`, extracting and decoding `ssid`
yields `Hello World` and `password` yields `p&q`. -/
theorem getFormField_spec (bodyA body name : List Nat) (i : Nat)
    (hA : ∀ j, j < bodyA.length →
      ¬ (name ++ [61]).isPrefixOf (bodyA.drop j) = true)
    (hpre : (name ++ [61]).isPrefixOf (body.drop i) = true)
    (hmin : ∀ j, j < i → ¬ (name ++ [61]).isPrefixOf (body.drop j) = true) :
    getFormField bodyA name = []
  ∧ getFormField body name =
      (body.drop (i + (name.length + 1))).takeWhile (fun b => b != 38)
  ∧ urlDecode (getFormField exampleBody ssidKey) = sB "Hello World"
  ∧ urlDecode (getFormField exampleBody passwordKey) = sB "p&q" := by
  refine ⟨?_, getFormField_firstOccur body name i hpre hmin, by decide, by decide⟩
  have hnone := subIndexFrom_none (name ++ [61]) (by simp) bodyA hA
  unfold getFormField
  simp [hnone]

theorem getFormField_spec_witness :
    (∀ j, j < (sB "a=1").length →
      ¬ (sB "ssid" ++ [61]).isPrefixOf ((sB "a=1").drop j) = true)
  ∧ (sB "ssid" ++ [61]).isPrefixOf (exampleBody.drop 4) = true
  ∧ (∀ j, j < 4 → ¬ (sB "ssid" ++ [61]).isPrefixOf (exampleBody.drop j) = true)
  ∧ (getFormField (sB "a=1") (sB "ssid") = []
  ∧ getFormField exampleBody (sB "ssid") =
      (exampleBody.drop (4 + ((sB "ssid").length + 1))).takeWhile (fun b => b != 38)
  ∧ urlDecode (getFormField exampleBody ssidKey) = sB "Hello World"
  ∧ urlDecode (getFormField exampleBody passwordKey) = sB "p&q") :=
  ⟨by decide, by decide, by decide,
   getFormField_spec (sB "a=1") exampleBody (sB "ssid") 4
     (by decide) (by decide) (by decide)⟩

/-! ## C10: raw substring match in form-field extraction -/

/-- Body in which the text `name=` occurs embedded at the end of a longer
key (`k ++ name ++ "="`) with value `x`, followed by the field actually
named `name` with value `y`. -/
def collisionBody (k name x y : List Nat) : List Nat :=
  k ++ (name ++ [61]) ++ x ++ [38] ++ (name ++ [61]) ++ y

theorem isPrefixOf_append_self (p rest : List Nat) :
    p.isPrefixOf (p ++ rest) = true := by
  induction p with
  | nil => cases rest <;> rfl
  | cons a t ih => simp [List.isPrefixOf, ih]

theorem takeWhile_append_amp (x rest : List Nat) (hx : (38 : Nat) ∉ x) :
    (x ++ 38 :: rest).takeWhile (fun b => b != 38) = x := by
  induction x with
  | nil => simp [List.takeWhile_cons]
  | cons a t ih =>
    have ha : a ≠ 38 := fun h => hx (h ▸ List.mem_cons_self a t)
    have ht : (38 : Nat) ∉ t := fun h => hx (List.mem_cons_of_mem _ h)
    simp [List.takeWhile_cons, bne_iff_ne, ha, ih ht]

/-- C10: for every body in which the text `name=` first occurs embedded
inside a longer key (a nonempty prefix `k` that does not end in `&`, so the
occurrence is not at a field-name start), the scan matches that raw
occurrence: extraction returns the longer key's value `x` (up to the next
`&`) and not the value `y` of the field actually named `name`; the body
`bssid=X&ssid=Y` with name `ssid` is the specification's instance. -/
theorem getFormField_substring_collision (k name x y : List Nat)
    (hk : k ≠ []) (hklast : k.getLast? ≠ some 38)
    (hmin : ∀ j, j < k.length →
      ¬ (name ++ [61]).isPrefixOf ((collisionBody k name x y).drop j) = true)
    (hxamp : (38 : Nat) ∉ x)
    (hxy : x ≠ y.takeWhile (fun b => b != 38)) :
    getFormField (collisionBody k name x y) name = x
  ∧ getFormField (collisionBody k name x y) name ≠
      y.takeWhile (fun b => b != 38)
  ∧ getFormField (sB "bssid=X&ssid=Y") (sB "ssid") = sB "X"
  ∧ getFormField (sB "bssid=X&ssid=Y") (sB "ssid") ≠ sB "Y" := by
  have hassoc : collisionBody k name x y =
      k ++ ((name ++ [61]) ++ (x ++ 38 :: ((name ++ [61]) ++ y))) := by
    unfold collisionBody
    simp [List.append_assoc]
  have hpre : (name ++ [61]).isPrefixOf
      ((collisionBody k name x y).drop k.length) = true := by
    rw [hassoc, List.drop_left]
    exact isPrefixOf_append_self _ _
  have hmain := getFormField_firstOccur (collisionBody k name x y) name
    k.length hpre hmin
  have hdrop2 : (collisionBody k name x y).drop (k.length + (name.length + 1)) =
      x ++ 38 :: ((name ++ [61]) ++ y) := by
    have h2 : collisionBody k name x y =
        (k ++ (name ++ [61])) ++ (x ++ 38 :: ((name ++ [61]) ++ y)) := by
      unfold collisionBody
      simp [List.append_assoc]
    have hlen2 : (k ++ (name ++ [61])).length = k.length + (name.length + 1) := by
      simp
    rw [h2, ← hlen2, List.drop_left]
  have hx : getFormField (collisionBody k name x y) name = x := by
    rw [hmain, hdrop2, takeWhile_append_amp x _ hxamp]
  refine ⟨hx, ?_, by decide, by decide⟩
  rw [hx]
  exact hxy

theorem getFormField_substring_collision_witness :
    (sB "b" ≠ [])
  ∧ ((sB "b").getLast? ≠ some 38)
  ∧ (∀ j, j < (sB "b").length →
      ¬ (sB "ssid" ++ [61]).isPrefixOf
        ((collisionBody (sB "b") (sB "ssid") (sB "X") (sB "Y")).drop j) = true)
  ∧ ((38 : Nat) ∉ sB "X")
  ∧ (sB "X" ≠ (sB "Y").takeWhile (fun b => b != 38))
  ∧ (getFormField (collisionBody (sB "b") (sB "ssid") (sB "X") (sB "Y"))
        (sB "ssid") = sB "X"
  ∧ getFormField (collisionBody (sB "b") (sB "ssid") (sB "X") (sB "Y"))
        (sB "ssid") ≠ (sB "Y").takeWhile (fun b => b != 38)
  ∧ getFormField (sB "bssid=X&ssid=Y") (sB "ssid") = sB "X"
  ∧ getFormField (sB "bssid=X&ssid=Y") (sB "ssid") ≠ sB "Y") :=
  ⟨by decide, by decide, by decide, by decide, by decide,
   getFormField_substring_collision (sB "b") (sB "ssid") (sB "X") (sB "Y")
     (by decide) (by decide) (by decide) (by decide) (by decide)⟩

/-! ## C8: credential truncation -/

theorem truncPad_long (n : Nat) (s : List Nat) (hn : 1 ≤ n)
    (h : n - 1 ≤ s.length) :
    truncPad n s = s.take (n - 1) ++ [0] := by
  show s.take (n - 1) ++ List.replicate (n - (s.take (n - 1)).length) 0 =
    s.take (n - 1) ++ [0]
  have hlen : (s.take (n - 1)).length = n - 1 := by
    simp [List.length_take]
    omega
  rw [hlen]
  have : n - (n - 1) = 1 := by omega
  rw [this]
  rfl

/-- C8: for every submission whose decoded, trimmed ssid field exceeds 31
bytes — regardless of the passphrase length — the stored ssid buffer holds
exactly the first 31 bytes followed by a null terminator; the stored
passphrase buffer always holds at most the first 63 bytes of its field
followed by null padding (the padding is nonempty, so a terminator is
always present); and the stored buffers always have exactly their fixed
32- and 64-byte sizes, so nothing is written past them. -/
theorem credential_truncation_safe (body : List Nat)
    (hs : 31 < (ssidFieldOf body).length) :
    (savedCreds body).ssid = (ssidFieldOf body).take 31 ++ [0]
  ∧ (savedCreds body).password =
      (passFieldOf body).take 63 ++
        List.replicate (64 - min 63 (passFieldOf body).length) 0
  ∧ 0 < 64 - min 63 (passFieldOf body).length
  ∧ (savedCreds body).ssid.length = 32
  ∧ (savedCreds body).password.length = 64
  ∧ (savedCreds body).magic = 66 := by
  have h1 : (savedCreds body).ssid = (ssidFieldOf body).take 31 ++ [0] :=
    truncPad_long 32 (ssidFieldOf body) (by omega) (by omega)
  have h2 : (savedCreds body).password =
      (passFieldOf body).take 63 ++
        List.replicate (64 - min 63 (passFieldOf body).length) 0 := by
    show (passFieldOf body).take 63 ++
        List.replicate (64 - ((passFieldOf body).take 63).length) 0 = _
    rw [List.length_take]
  refine ⟨h1, h2, by omega, ?_, ?_, rfl⟩
  · rw [h1]
    simp only [List.length_append, List.length_take, List.length_cons,
      List.length_nil]
    omega
  · rw [h2]
    simp only [List.length_append, List.length_take, List.length_replicate]
    omega

/-- Concrete body exercising the case the claim is about: a 40-byte ssid
together with a short (1-byte) passphrase. -/
def longSsidBody : List Nat :=
  sB "ssid=" ++ List.replicate 40 65 ++ sB "&password=p"

set_option maxRecDepth 20000 in
theorem credential_truncation_safe_witness :
    31 < (ssidFieldOf longSsidBody).length
  ∧ ((savedCreds longSsidBody).ssid = (ssidFieldOf longSsidBody).take 31 ++ [0]
  ∧ (savedCreds longSsidBody).password =
      (passFieldOf longSsidBody).take 63 ++
        List.replicate (64 - min 63 (passFieldOf longSsidBody).length) 0
  ∧ 0 < 64 - min 63 (passFieldOf longSsidBody).length
  ∧ (savedCreds longSsidBody).ssid.length = 32
  ∧ (savedCreds longSsidBody).password.length = 64
  ∧ (savedCreds longSsidBody).magic = 66) :=
  ⟨by decide, credential_truncation_safe longSsidBody (by decide)⟩
